import Mathlib

/-!
Shallow embedding of `src/reporter.py` (city-data-reporter).

The program fetches current weather for a city from the OpenWeatherMap
HTTP API, extracts five fields from the JSON response, prints a report,
writes one CSV row, and reads the CSV back for a summary.

Modelling conventions:
* JSON values are the inductive `Json`; Python `None` is `Json.null`.
* JSON numbers are `PyNum`: either a Python `int` or a Python `float`.
  A float is modelled by the finite decimal `Dec` that its `repr`
  prints (JSON number literals are finite decimals, and `repr` of a
  float round-trips), so float values are exact rationals `Dec.toQ`.
* An HTTP response body is modelled by its JSON-decode result:
  `none` stands for a body on which `response.json()` raises
  `ValueError` (malformed / truncated text).
* Exceptions are `Except String`; the string is the exception message.
* The file system is a map from paths to parsed CSV contents (a list
  of rows, each row a list of cell strings), plus writability and
  readability flags; the `csv` module reads back exactly the cell
  strings it wrote, so the parsed-row level is faithful.
-/

/-- A finite decimal `mant / 10 ^ exp`, the printed form of a Python float. -/
structure Dec where
  mant : Int
  exp : Nat
deriving DecidableEq

/-- Python numbers: `json` decodes integer literals to `int` and
fractional/exponent literals to `float`. -/
inductive PyNum where
  | int (i : Int) : PyNum
  | float (d : Dec) : PyNum
deriving DecidableEq

/-- JSON values as decoded by Python's `json` module. -/
inductive Json where
  | null : Json
  | bool (b : Bool) : Json
  | num (n : PyNum) : Json
  | str (s : String) : Json
  | arr (elems : List Json) : Json
  | obj (fields : List (String × Json)) : Json

/-- Exact rational value of a finite decimal. -/
def Dec.toQ (d : Dec) : ℚ := (d.mant : ℚ) / (10 : ℚ) ^ d.exp

/-- Exact rational value of a Python number. -/
def PyNum.toQ : PyNum → ℚ
  | .int i => (i : ℚ)
  | .float d => d.toQ

/-- Strip trailing decimal zeros: `21.60` and `21.6` are the same float,
whose `repr` is the shortest form. -/
def stripZeros : Int → Nat → Int × Nat
  | m, 0 => (m, 0)
  | m, e + 1 => if m % 10 = 0 then stripZeros (m / 10) e else (m, e + 1)

/-- Normal form of a decimal: no trailing fractional zeros. -/
def Dec.norm (d : Dec) : Dec :=
  let p := stripZeros d.mant d.exp
  ⟨p.1, p.2⟩

/-- Digit characters of `n`, most significant first, by repeated division
(`fuel` bounds the recursion; `[]` for `n = 0`). -/
def natDigitsAux : Nat → Nat → List Char
  | 0, _ => []
  | fuel + 1, n =>
    if n = 0 then [] else natDigitsAux fuel (n / 10) ++ [Char.ofNat (48 + n % 10)]

/-- Decimal digit characters of a natural number, most significant first. -/
def natDigits (n : Nat) : List Char :=
  if n = 0 then [Char.ofNat 48] else natDigitsAux n n

/-- Python `str` of a natural number. -/
def printNat (n : Nat) : String := String.mk (natDigits n)

/-- Python `str` of an `int`. -/
def printInt (i : Int) : String :=
  if i < 0 then "-" ++ printNat i.natAbs else printNat i.natAbs

/-- Fractional digit block of a float: the digits of `fp`, left-padded
with zeros to `e` digits (`fp < 10 ^ e`). -/
def fracChars (fp : Nat) (e : Nat) : List Char :=
  List.replicate (e - (natDigits fp).length) (Char.ofNat 48) ++ natDigits fp

/-- Python `repr`/`str` of a float: shortest decimal form, always with a
decimal point (`21.0`, `21.6`, `-0.5`). Exponent notation for extreme
magnitudes is outside the model. -/
def printFloat (d0 : Dec) : String :=
  let d := d0.norm
  let m := d.mant.natAbs
  let ip := m / 10 ^ d.exp
  let fp := m % 10 ^ d.exp
  let frac := if d.exp = 0 then [Char.ofNat 48] else fracChars fp d.exp
  (if d.mant < 0 then "-" else "") ++ printNat ip ++ "." ++ String.mk frac

/-- Python `str` of a number. -/
def pyStrNum : PyNum → String
  | .int i => printInt i
  | .float d => printFloat d

mutual
/-- Python `repr` of a decoded JSON value (string escaping not modelled). -/
def pyRepr : Json → String
  | .null => "None"
  | .bool b => if b then "True" else "False"
  | .num n => pyStrNum n
  | .str s => String.singleton (Char.ofNat 39) ++ s ++ String.singleton (Char.ofNat 39)
  | .arr xs => "[" ++ pyReprList xs ++ "]"
  | .obj l => "\x7b" ++ pyReprObj l ++ "\x7d"

/-- Python repr of list elements, comma separated. -/
def pyReprList : List Json → String
  | [] => ""
  | [x] => pyRepr x
  | x :: y :: xs => pyRepr x ++ ", " ++ pyReprList (y :: xs)

/-- Python repr of dict entries, comma separated. -/
def pyReprObj : List (String × Json) → String
  | [] => ""
  | [kv] => String.singleton (Char.ofNat 39) ++ kv.1 ++ String.singleton (Char.ofNat 39)
      ++ ": " ++ pyRepr kv.2
  | kv :: kv2 :: l => String.singleton (Char.ofNat 39) ++ kv.1
      ++ String.singleton (Char.ofNat 39) ++ ": " ++ pyRepr kv.2 ++ ", "
      ++ pyReprObj (kv2 :: l)
end

/-- Python `str` of a value (as used by f-strings): strings unquoted,
everything else via `repr`. -/
def pyStr : Json → String
  | .str s => s
  | j => pyRepr j

/-- A CSV cell as the `csv` writer emits it: `None` becomes the empty
string, other values go through `str`. -/
def csvCell : Json → String
  | .null => ""
  | j => pyStr j

/-- Python `str.capitalize`: first character upper-cased, the rest
lower-cased (ASCII model). -/
def pyCapitalize (s : String) : String :=
  match s.toList with
  | [] => ""
  | c :: cs => String.mk (c.toUpper :: cs.map Char.toLower)

/-- Python 3 `round` to an integer: round-half-to-even (banker's rounding). -/
def pyRound (q : ℚ) : Int :=
  let f := q.floor
  let r := q - (f : ℚ)
  if r < 1 / 2 then f
  else if 1 / 2 < r then f + 1
  else if f % 2 = 0 then f else f + 1

/-- Python `round` applied to a number (`round(int)` is the identity). -/
def pyNumRound : PyNum → Int
  | .int i => i
  | .float d => pyRound d.toQ

/-- Whitespace characters stripped by Python `float(str)` and `str.strip`. -/
def isSpaceChar (c : Char) : Bool :=
  c = ' ' || c.toNat = 9 || c.toNat = 10 || c.toNat = 13

/-- Strip leading and trailing whitespace from a character list. -/
def trimChars (l : List Char) : List Char :=
  ((l.dropWhile isSpaceChar).reverse.dropWhile isSpaceChar).reverse

/-- Python `str.strip`. -/
def pyStrip (s : String) : String := String.mk (trimChars s.toList)

/-- Numeric value of a decimal digit character. -/
def digitVal (c : Char) : Nat := c.toNat - 48

/-- Value of a most-significant-first digit string. -/
def digitsVal (l : List Char) : Nat :=
  l.foldl (fun a c => 10 * a + digitVal c) 0

/-- Parse a non-empty all-digit string. -/
def digitsToNat (l : List Char) : Option Nat :=
  if l ≠ [] ∧ l.all Char.isDigit then some (digitsVal l) else none

/-- Split a character list at the first occurrence of `c`, if any. -/
def splitOnChar (c : Char) : List Char → Option (List Char × List Char)
  | [] => none
  | x :: xs =>
    if x = c then some ([], xs)
    else (splitOnChar c xs).map (fun p => (x :: p.1, p.2))

/-- Parse the unsigned mantissa of a float literal: digits with an
optional decimal point, at least one digit (`12`, `12.`, `12.5`, `.5`). -/
def parseDecMag (l : List Char) : Option ℚ :=
  match splitOnChar (Char.ofNat 46) l with
  | none => (digitsToNat l).map (fun n => (n : ℚ))
  | some (ip, fp) =>
    if (ip.all Char.isDigit && fp.all Char.isDigit) && (!ip.isEmpty || !fp.isEmpty) then
      some ((digitsVal ip : ℚ) + (digitsVal fp : ℚ) / (10 : ℚ) ^ fp.length)
    else none

/-- Split at the exponent marker `e` or `E`, if any. -/
def splitOnExp (l : List Char) : Option (List Char × List Char) :=
  match splitOnChar (Char.ofNat 101) l with
  | some p => some p
  | none => splitOnChar (Char.ofNat 69) l

/-- Parse the signed integer exponent of a float literal. -/
def parseSignedExp (l : List Char) : Option Int :=
  match l with
  | c :: r =>
    if c = Char.ofNat 43 then (digitsToNat r).map Int.ofNat
    else if c = Char.ofNat 45 then (digitsToNat r).map (fun n => -(n : Int))
    else (digitsToNat l).map Int.ofNat
  | [] => none

/-- Parse an unsigned float literal, with optional exponent part. -/
def parseMag (l : List Char) : Option ℚ :=
  match splitOnExp l with
  | none => parseDecMag l
  | some (m, e) =>
    match parseDecMag m, parseSignedExp e with
    | some q, some k => some (q * (10 : ℚ) ^ (k : ℤ))
    | _, _ => none

/-- Value classes of a successful Python `float(str)` call: a finite
value, a signed infinity, or NaN. -/
inductive FloatVal where
  | finite (q : ℚ) : FloatVal
  | inf (neg : Bool) : FloatVal
  | nan : FloatVal
deriving DecidableEq

/-- The overflow threshold of IEEE-754 binary64: an exact decimal value
whose magnitude is at least `2^1024 - 2^970` rounds to infinity, so
Python `float(str)` returns `inf` for such literals. -/
def ovfThreshold : ℚ := 2 ^ 1024 - 2 ^ 970

/-- Whether a list starts with a digit (empty lists do not). -/
def headIsDigit : List Char → Bool
  | d :: _ => d.isDigit
  | [] => false

/-- Tail scan for digit-group underscores: each `_` must be immediately
preceded and followed by a digit (`prev` is the previous character). -/
def usAux (prev : Char) : List Char → Bool
  | [] => true
  | c :: rest =>
    if c = Char.ofNat 95 then prev.isDigit && headIsDigit rest && usAux c rest
    else usAux c rest

/-- Python's underscore rule for numeric literals: every `_` sits
between two digits (so none leading, trailing, doubled, or adjacent to
`.`, `e` or a sign). -/
def underscoresOk : List Char → Bool
  | [] => true
  | c :: rest => if c = Char.ofNat 95 then false else usAux c rest

/-- Remove the digit-group underscores before numeric parsing. -/
def stripU (l : List Char) : List Char :=
  l.filter (fun c => !(c = Char.ofNat 95))

/-- Whether a literal carries an exponent marker `e`/`E`. -/
def hasExpChar (l : List Char) : Bool :=
  l.any (fun c => c = Char.ofNat 101 || c = Char.ofNat 69)

/-- Python `float(str)` on the sign-stripped body: the `inf`/`infinity`
and `nan` literals (case-insensitive) give non-finite values; otherwise
a numeric literal with legal underscores is parsed, and a literal in
exponent notation whose magnitude reaches the binary64 overflow
threshold gives `inf` (as `float('1e999')` does). Exponent-free
literals are modelled exactly: the program's own floats all print in
that form and lie far below the threshold. `none` models `ValueError`. -/
def pyFloatBody (neg : Bool) (body : List Char) : Option FloatVal :=
  let low := body.map Char.toLower
  if low = "inf".toList ∨ low = "infinity".toList then some (.inf neg)
  else if low = "nan".toList then some .nan
  else if underscoresOk body = true then
    match parseMag (stripU body) with
    | some q =>
      if hasExpChar body = true ∧ ovfThreshold ≤ q then some (.inf neg)
      else some (.finite (if neg then -q else q))
    | none => none
  else none

/-- Python `float(str)`: optional surrounding whitespace and sign, then
the body (`inf`/`nan` literal or numeric literal); `none` models
`ValueError`. -/
def pyFloat (s : String) : Option FloatVal :=
  match trimChars s.toList with
  | c :: r =>
    if c = Char.ofNat 43 then pyFloatBody false r
    else if c = Char.ofNat 45 then pyFloatBody true r
    else pyFloatBody false (c :: r)
  | [] => none

/-- The finite results of `float(str)`: the exact rational value when
the call succeeds with a finite float, `none` on `ValueError` or a
non-finite result. -/
def parseFloat (s : String) : Option ℚ :=
  match pyFloat s with
  | some (.finite q) => some q
  | _ => none

/-- Whether `float(cell)` yields an infinity, on which the program's
`round` raises an uncaught `OverflowError`. -/
def cellOverflows (s : String) : Bool :=
  match pyFloat s with
  | some (.inf _) => true
  | _ => false

/-- Lookup in a Python dict built from an association list: for duplicate
keys the last binding wins (as with `json` object decoding and
`dict(zip ...)`). -/
def lookupLast : List (String × Json) → String → Option Json
  | [], _ => none
  | kv :: l, k =>
    match lookupLast l k with
    | some v => some v
    | none => if kv.1 = k then some kv.2 else none

/-- Python `data.get(k)`: `None` default on a missing key;
`AttributeError` when the receiver is not a dict. -/
def pyGet (j : Json) (k : String) : Except String Json :=
  match j with
  | .obj l => .ok ((lookupLast l k).getD .null)
  | _ => .error "AttributeError"

/-- Python `data[k]` on a decoded JSON value: `KeyError` on a missing
key, `TypeError` when the receiver is not a dict. -/
def getItem (j : Json) (k : String) : Except String Json :=
  match j with
  | .obj l =>
    match lookupLast l k with
    | some v => .ok v
    | none => .error ("KeyError: " ++ k)
  | _ => .error "TypeError"

/-- Python `data[i]` for an integer index: `IndexError` when out of
range, `TypeError` when the receiver is not a list. -/
def getIdx (j : Json) (i : Nat) : Except String Json :=
  match j with
  | .arr xs =>
    match xs.get? i with
    | some v => .ok v
    | none => .error "IndexError"
  | _ => .error "TypeError"

/-- The lookup `data['sys']['country']` in `get_city_data`. -/
def countryOf (data : Json) : Except String Json := do
  let s ← getItem data "sys"
  getItem s "country"

/-- The lookup `data['main']['temp']` in `get_city_data`. -/
def tempOf (data : Json) : Except String Json := do
  let m ← getItem data "main"
  getItem m "temp"

/-- The lookup `data['main']['humidity']` in `get_city_data`. -/
def humidityOf (data : Json) : Except String Json := do
  let m ← getItem data "main"
  getItem m "humidity"

/-- The lookup `data['weather'][0]['description']` in `get_city_data`. -/
def descriptionOf (data : Json) : Except String Json := do
  let w ← getItem data "weather"
  let w0 ← getIdx w 0
  getItem w0 "description"

/-- The `key_city_data` dict produced by `get_city_data`: the five
extracted values, in Python's evaluation order. -/
structure CityData where
  city : Json
  country : Json
  temperature : Json
  humidity : Json
  description : Json

/-- Building the `key_city_data` dict literal: `data.get('name')` for the
city, bracket lookups for the other four fields; any lookup exception
escapes (the surrounding `try` only catches `RequestException`). -/
def extract_city_data (data : Json) : Except String CityData := do
  let city ← pyGet data "name"
  let country ← countryOf data
  let temperature ← tempOf data
  let humidity ← humidityOf data
  let description ← descriptionOf data
  pure ⟨city, country, temperature, humidity, description⟩

/-- Outcome of `requests.get` as `get_city_data` observes it:
a `RequestException` during the request, or a response with a status
code and a body (the body given by its JSON-decode result). -/
inductive HTTPResult where
  | reqError (msg : String) : HTTPResult
  | response (status : Nat) (body : Option Json) : HTTPResult

/-- The call `response.raise_for_status()` raises `HTTPError` exactly for status
codes in [400, 600). -/
def raiseForStatus (status : Nat) : Bool :=
  400 ≤ status && status < 600

/-- Function `get_city_data`: returns `.ok none` (Python `None`, with a printed
message) on `RequestException` — including the `HTTPError` from
`raise_for_status` — and on a JSON decode `ValueError`; returns the
extracted dict on success; lets extraction exceptions escape as
`.error`. -/
def get_city_data (resp : HTTPResult) : Except String (Option CityData) :=
  match resp with
  | .reqError _ => .ok none
  | .response status body =>
    if raiseForStatus status then .ok none
    else
      match body with
      | none => .ok none
      | some data => (extract_city_data data).map some

/-- Function `display_data`: the lines printed for a fetched record, or the
failure line for `None`; `round` on a non-number raises `TypeError` and
`.capitalize()` on a non-string raises `AttributeError`, both escaping. -/
def display_data : Option CityData → Except String (List String)
  | none => .ok ["Failed to retrieve data. Check city name or API key."]
  | some d => do
    let t ← match d.temperature with
      | .num n => Except.ok (pyNumRound n)
      | _ => Except.error "TypeError"
    let cap ← match d.description with
      | .str s => Except.ok (pyCapitalize s)
      | _ => Except.error "AttributeError"
    pure ["\n--- Weather Report ---",
      "City: " ++ pyStr d.city ++ ", " ++ pyStr d.country,
      "Temperature: " ++ printInt t ++ "°C",
      "Humidity: " ++ pyStr d.humidity ++ "%",
      "Description: " ++ cap]

/-- The constant `FILENAME = 'city_data.csv'`. -/
def FILENAME : String := "city_data.csv"

/-- The file system: parsed CSV contents per path, plus whether a path
can be opened for writing / reading. -/
structure FS where
  files : String → Option (List (List String))
  writable : String → Bool
  readable : String → Bool

/-- The `headers` list in `write_to_csv`. -/
def csvHeaders : List String :=
  ["City", "Country", "Temperature (C)", "Humidity (%)", "Description"]

/-- The single data row written by `write_to_csv`: raw values through
the `csv` writer's cell conversion. -/
def csvRow (d : CityData) : List String :=
  [csvCell d.city, csvCell d.country, csvCell d.temperature,
   csvCell d.humidity, csvCell d.description]

/-- Result of one call of `read_csv`. -/
inductive ReadOutcome where
  | notFound : ReadOutcome
  | ioError : ReadOutcome
  | err (msg : String) : ReadOutcome
  | summary (count : Nat) (entries : List (Option String × String)) : ReadOutcome
deriving DecidableEq

/-- Observable steps of one run of the `__main__` block. -/
inductive Step where
  | displayed (lines : List String) : Step
  | csvWritten (filename : String) (contents : List (List String)) : Step
  | csvWriteFailed : Step
  | csvWriteSkipped : Step
  | csvRead (filename : String) (outcome : ReadOutcome) : Step
  | errorCaught (msg : String) : Step
deriving DecidableEq

/-- Function `write_to_csv`: nothing is written for `None` (prints
"Data failed to write."); otherwise `open(filename, 'w')` truncates and
the header plus one data row replace the file; an `IOError` is caught
and reported. -/
def write_to_csv (city_data : Option CityData) (filename : String) (fs : FS) :
    FS × Step :=
  match city_data with
  | none => (fs, .csvWriteSkipped)
  | some d =>
    if fs.writable filename then
      let contents := [csvHeaders, csvRow d]
      (⟨fun p => if p = filename then some contents else fs.files p,
        fs.writable, fs.readable⟩,
       .csvWritten filename contents)
    else (fs, .csvWriteFailed)

/-- Index of the last occurrence of `k` in a header list: for duplicate
field names `dict(zip(fieldnames, row))` keeps the last binding. -/
def lastIdxOf : List String → String → Option Nat
  | [], _ => none
  | x :: xs, k =>
    match lastIdxOf xs k with
    | some i => some (i + 1)
    | none => if x = k then some 0 else none

/-- The lookup `row[k]` on a `csv.DictReader` row dict: `KeyError` when `k` is not
a field name; `None` (the `restval`) when the row is shorter than the
header. -/
def rowGet (header cells : List String) (k : String) :
    Except String (Option String) :=
  match lastIdxOf header k with
  | none => .error ("KeyError: " ++ k)
  | some i => .ok (cells.get? i)

/-- The per-row temperature text in `read_csv`:
`round(float(cell))` printed. `ValueError` — from `float()` on
non-numeric text, or from `round()` on NaN — is caught as the sentinel
`'N/A'`; `round()` on an infinite float raises `OverflowError` and
`float(None)` raises `TypeError`, neither of which is caught. -/
def tempOfCell : Option String → Except String String
  | none => .error "TypeError"
  | some s =>
    match pyFloat s with
    | some (.finite q) => .ok (printInt (pyRound q))
    | some (.inf _) => .error "OverflowError"
    | some .nan => .ok "N/A"
    | none => .ok "N/A"

/-- One iteration of the reporting loop in `read_csv`: the temperature
is computed first, then the city cell is read for the printed line. -/
def rowReport (header cells : List String) :
    Except String (Option String × String) := do
  let tcell ← rowGet header cells "Temperature (C)"
  let temp ← tempOfCell tcell
  let ccell ← rowGet header cells "City"
  pure (ccell, temp)

/-- The reporting loop of `read_csv` over all data rows. -/
def processRows (header : List String) :
    List (List String) → Except String (List (Option String × String))
  | [] => .ok []
  | r :: rs => do
    let e ← rowReport header r
    let es ← processRows header rs
    pure (e :: es)

/-- Function `read_csv`: `FileNotFoundError` and `IOError` are caught and
reported; otherwise `csv.DictReader` takes the first row as the header
and skips blank rows, the count is the number of data rows, and each
row is reported; an uncaught exception in the loop is `.err`. -/
def read_csv (filename : String) (fs : FS) : ReadOutcome :=
  match fs.files filename with
  | none => .notFound
  | some rows =>
    if fs.readable filename then
      match rows with
      | [] => .summary 0 []
      | header :: rest =>
        let body := rest.filter (fun r => !r.isEmpty)
        match processRows header body with
        | .ok entries => .summary body.length entries
        | .error e => .err e
    else .ioError

/-- Function `get_city`: first input line that is non-empty after stripping;
`none` when the input stream runs out. -/
def get_city : List String → Option String
  | [] => none
  | s :: rest =>
    let t := pyStrip s
    if t.isEmpty then get_city rest else some t

/-- The `__main__` block after the city prompt: fetch, display, write,
read back; any exception reaching the top level is caught and printed
(`errorCaught`). Returns the final file system and the observable
steps in order. -/
def mainRun (resp : HTTPResult) (fs : FS) : FS × List Step :=
  match get_city_data resp with
  | .error e => (fs, [.errorCaught e])
  | .ok city_data =>
    match display_data city_data with
    | .error e => (fs, [.errorCaught e])
    | .ok lines =>
      match write_to_csv city_data FILENAME fs with
      | (fs2, wstep) =>
        let ro := read_csv FILENAME fs2
        match ro with
        | .err m =>
          (fs2, [.displayed lines, wstep, .csvRead FILENAME ro, .errorCaught m])
        | _ => (fs2, [.displayed lines, wstep, .csvRead FILENAME ro])

/-- An empty, fully accessible file system. -/
def fs0 : FS := ⟨fun _ => none, fun _ => true, fun _ => true⟩

lemma charOfNat_digitChar (d : Nat) (h : d < 10) :
    Char.ofNat (48 + d) = Nat.digitChar d := by
  interval_cases d <;> decide

lemma natDigitsAux_eq (fuel n : Nat) (h : n ≤ fuel) :
    natDigitsAux fuel n = ((Nat.digits 10 n).map Nat.digitChar).reverse := by
  induction fuel generalizing n with
  | zero =>
    have hn : n = 0 := Nat.le_zero.mp h
    subst hn
    simp [natDigitsAux]
  | succ f ih =>
    by_cases hn : n = 0
    · subst hn
      simp [natDigitsAux]
    · have hpos : 0 < n := Nat.pos_of_ne_zero hn
      have hdiv : n / 10 ≤ f := by
        have := Nat.div_lt_self hpos (by norm_num : 1 < 10)
        omega
      rw [natDigitsAux, if_neg hn, ih (n / 10) hdiv,
        Nat.digits_def' (by norm_num : 1 < 10) hpos]
      simp [charOfNat_digitChar (n % 10) (Nat.mod_lt n (by norm_num))]

lemma natDigits_eq_digits (n : Nat) :
    natDigits n
      = if n = 0 then [Char.ofNat 48] else ((Nat.digits 10 n).map Nat.digitChar).reverse := by
  by_cases h : n = 0
  · simp [natDigits, h]
  · rw [natDigits, if_neg h, if_neg h, natDigitsAux_eq n n le_rfl]

lemma digitVal_digitChar (d : Nat) (h : d < 10) :
    digitVal (Nat.digitChar d) = d := by
  interval_cases d <;> decide

lemma isDigit_digitChar (d : Nat) (h : d < 10) :
    (Nat.digitChar d).isDigit = true := by
  interval_cases d <;> decide

lemma isDigit_toNat_bounds (c : Char) (h : c.isDigit = true) :
    48 ≤ c.toNat ∧ c.toNat ≤ 57 := by
  simp [Char.isDigit] at h
  exact h

lemma isSpaceChar_eq_false_of_isDigit (c : Char) (h : c.isDigit = true) :
    isSpaceChar c = false := by
  have hb := isDigit_toNat_bounds c h
  have h1 : ¬(c = ' ') := by intro hc; subst hc; simp at h
  have h2 : ¬(c.toNat = 9) := by omega
  have h3 : ¬(c.toNat = 10) := by omega
  have h4 : ¬(c.toNat = 13) := by omega
  simp [isSpaceChar, h1, h2, h3, h4]

lemma ne_of_isDigit_of_not_isDigit (c c0 : Char) (h : c.isDigit = true)
    (h0 : c0.isDigit = false) : c ≠ c0 := by
  intro hc
  rw [hc, h0] at h
  exact Bool.false_ne_true h

lemma foldl_digits_rev (L : List Nat) (hL : ∀ d ∈ L, d < 10) (a : Nat) :
    ((L.map Nat.digitChar).reverse).foldl (fun x c => 10 * x + digitVal c) a
      = a * 10 ^ L.length + Nat.ofDigits 10 L := by
  induction L generalizing a with
  | nil => simp [Nat.ofDigits]
  | cons d L ih =>
    have hd : d < 10 := hL d (List.mem_cons_self d L)
    have hL2 : ∀ x ∈ L, x < 10 := fun x hx => hL x (List.mem_cons_of_mem d hx)
    simp only [List.map_cons, List.reverse_cons, List.foldl_append, List.foldl_cons,
      List.foldl_nil, ih hL2 a, Nat.ofDigits_cons, List.length_cons]
    rw [digitVal_digitChar d hd]
    ring

lemma digitsVal_natDigits (n : Nat) : digitsVal (natDigits n) = n := by
  by_cases h : n = 0
  · subst h; decide
  · have hlt : ∀ d ∈ Nat.digits 10 n, d < 10 :=
      fun d hd => Nat.digits_lt_base (by norm_num) hd
    rw [natDigits_eq_digits]
    simp only [h, if_false, digitsVal]
    rw [foldl_digits_rev (Nat.digits 10 n) hlt 0]
    simp [Nat.ofDigits_digits]

lemma natDigits_all_isDigit (n : Nat) : ∀ c ∈ natDigits n, c.isDigit = true := by
  intro c hc
  by_cases h : n = 0
  · subst h; simp [natDigits] at hc; subst hc; decide
  · rw [natDigits_eq_digits] at hc
    simp only [h, if_false, List.mem_reverse, List.mem_map] at hc
    obtain ⟨d, hd, rfl⟩ := hc
    exact isDigit_digitChar d (Nat.digits_lt_base (by norm_num) hd)

lemma natDigits_ne_nil (n : Nat) : natDigits n ≠ [] := by
  by_cases h : n = 0
  · subst h; decide
  · rw [natDigits_eq_digits]
    simp only [h, if_false, ne_eq, List.reverse_eq_nil_iff, List.map_eq_nil_iff]
    exact Nat.digits_ne_nil_iff_ne_zero.mpr h

lemma natDigits_length_le (n e : Nat) (hn : n < 10 ^ e) (he : 1 ≤ e) :
    (natDigits n).length ≤ e := by
  by_cases h : n = 0
  · subst h; simpa [natDigits] using he
  · rw [natDigits_eq_digits]
    simp only [h, if_false, List.length_reverse, List.length_map]
    rw [Nat.digits_len 10 n (by norm_num) h]
    have := Nat.log_lt_of_lt_pow h hn
    omega

lemma dropWhile_eq_self_of_none (p : Char → Bool) (l : List Char)
    (h : ∀ c ∈ l, p c = false) : l.dropWhile p = l := by
  cases l with
  | nil => rfl
  | cons x xs =>
    rw [List.dropWhile_cons, h x (List.mem_cons_self x xs)]
    simp

lemma trimChars_eq_self (l : List Char) (h : ∀ c ∈ l, isSpaceChar c = false) :
    trimChars l = l := by
  unfold trimChars
  rw [dropWhile_eq_self_of_none _ l h,
    dropWhile_eq_self_of_none _ l.reverse (fun c hc => h c (List.mem_reverse.mp hc)),
    List.reverse_reverse]

lemma splitOnChar_eq_none (c : Char) (l : List Char) (h : ∀ x ∈ l, x ≠ c) :
    splitOnChar c l = none := by
  induction l with
  | nil => rfl
  | cons x xs ih =>
    have hx : ¬(x = c) := h x (List.mem_cons_self x xs)
    simp only [splitOnChar, hx, if_false,
      ih (fun y hy => h y (List.mem_cons_of_mem x hy))]
    rfl

lemma splitOnChar_append (c : Char) (xs ys : List Char) (h : ∀ x ∈ xs, x ≠ c) :
    splitOnChar c (xs ++ c :: ys) = some (xs, ys) := by
  induction xs with
  | nil => simp [splitOnChar]
  | cons x l ih =>
    have hx : ¬(x = c) := h x (List.mem_cons_self x l)
    simp only [List.cons_append, splitOnChar, hx, if_false, List.append_eq,
      ih (fun y hy => h y (List.mem_cons_of_mem x hy))]
    rfl

lemma foldl_replicate_zero (k : Nat) :
    (List.replicate k (Char.ofNat 48)).foldl (fun x c => 10 * x + digitVal c) 0 = 0 := by
  induction k with
  | zero => rfl
  | succ n ih => simpa [List.replicate_succ, digitVal] using ih

lemma digitsVal_pad (k : Nat) (ds : List Char) :
    digitsVal (List.replicate k (Char.ofNat 48) ++ ds) = digitsVal ds := by
  unfold digitsVal
  rw [List.foldl_append, foldl_replicate_zero]

lemma fracChars_all_isDigit (fp e : Nat) : ∀ c ∈ fracChars fp e, c.isDigit = true := by
  intro c hc
  rcases List.mem_append.mp hc with hc | hc
  · rw [List.eq_of_mem_replicate hc]; decide
  · exact natDigits_all_isDigit fp c hc

lemma digitsVal_fracChars (fp e : Nat) : digitsVal (fracChars fp e) = fp := by
  unfold fracChars
  rw [digitsVal_pad, digitsVal_natDigits]

lemma fracChars_length (fp e : Nat) (hfp : fp < 10 ^ e) (he : 1 ≤ e) :
    (fracChars fp e).length = e := by
  have hle := natDigits_length_le fp e hfp he
  simp [fracChars]
  omega

lemma parseDecMag_digits (l : List Char) (hl : ∀ c ∈ l, c.isDigit = true)
    (hne : l ≠ []) : parseDecMag l = some ((digitsVal l : ℚ)) := by
  have hdot : ∀ x ∈ l, x ≠ Char.ofNat 46 :=
    fun x hx => ne_of_isDigit_of_not_isDigit x _ (hl x hx) (by decide)
  simp [parseDecMag, splitOnChar_eq_none _ l hdot, digitsToNat, hne,
    List.all_eq_true.mpr hl]

lemma parseDecMag_dot (ip frac : List Char) (hip : ∀ c ∈ ip, c.isDigit = true)
    (hfrac : ∀ c ∈ frac, c.isDigit = true) (hne : ip ≠ []) :
    parseDecMag (ip ++ Char.ofNat 46 :: frac)
      = some ((digitsVal ip : ℚ) + (digitsVal frac : ℚ) / (10 : ℚ) ^ frac.length) := by
  have hdot : ∀ x ∈ ip, x ≠ Char.ofNat 46 :=
    fun x hx => ne_of_isDigit_of_not_isDigit x _ (hip x hx) (by decide)
  have hemp : ip.isEmpty = false := by
    cases ip with
    | nil => exact absurd rfl hne
    | cons x xs => rfl
  simp [parseDecMag, splitOnChar_append _ ip frac hdot,
    List.all_eq_true.mpr hip, List.all_eq_true.mpr hfrac, hemp]

lemma parseMag_no_exp (l : List Char)
    (h : ∀ c ∈ l, c ≠ Char.ofNat 101 ∧ c ≠ Char.ofNat 69) :
    parseMag l = parseDecMag l := by
  unfold parseMag splitOnExp
  rw [splitOnChar_eq_none _ l (fun x hx => (h x hx).1),
    splitOnChar_eq_none _ l (fun x hx => (h x hx).2)]

lemma no_exp_of_digit_or_dot (l : List Char)
    (h : ∀ c ∈ l, c.isDigit = true ∨ c = Char.ofNat 46) :
    ∀ c ∈ l, c ≠ Char.ofNat 101 ∧ c ≠ Char.ofNat 69 := by
  intro c hc
  rcases h c hc with hd | hd
  · exact ⟨ne_of_isDigit_of_not_isDigit c _ hd (by decide),
      ne_of_isDigit_of_not_isDigit c _ hd (by decide)⟩
  · subst hd; exact ⟨by decide, by decide⟩

lemma toLower_of_digit_or_dot (c : Char)
    (h : c.isDigit = true ∨ c = Char.ofNat 46) : c.toLower = c := by
  rcases h with h | h
  · have hb : 48 ≤ c.toNat ∧ c.toNat ≤ 57 := isDigit_toNat_bounds c h
    simp [Char.toLower]
    omega
  · subst h
    decide

lemma map_toLower_ne_of_head (body : List Char)
    (hdd : ∀ c ∈ body, c.isDigit = true ∨ c = Char.ofNat 46)
    (c0 : Char) (rest : List Char) (h0 : c0.isDigit = false)
    (h0d : c0 ≠ Char.ofNat 46) :
    body.map Char.toLower ≠ c0 :: rest := by
  intro h
  have hmem : c0 ∈ body.map Char.toLower := by
    rw [h]
    exact List.mem_cons_self _ _
  obtain ⟨c, hc, hlc⟩ := List.mem_map.mp hmem
  rw [toLower_of_digit_or_dot c (hdd c hc)] at hlc
  subst hlc
  rcases hdd c hc with hd | hd
  · rw [h0] at hd
    exact Bool.false_ne_true hd
  · exact h0d hd

lemma usAux_no_underscore (prev : Char) (l : List Char)
    (h : ∀ c ∈ l, c ≠ Char.ofNat 95) : usAux prev l = true := by
  induction l generalizing prev with
  | nil => rfl
  | cons c rest ih =>
    have hc : ¬(c = Char.ofNat 95) := h c (List.mem_cons_self c rest)
    rw [usAux, if_neg hc]
    exact ih c (fun x hx => h x (List.mem_cons_of_mem c hx))

lemma no_underscore_of_digit_or_dot (body : List Char)
    (hdd : ∀ c ∈ body, c.isDigit = true ∨ c = Char.ofNat 46) :
    ∀ c ∈ body, c ≠ Char.ofNat 95 := by
  intro c hc
  rcases hdd c hc with hd | hd
  · exact ne_of_isDigit_of_not_isDigit c _ hd (by decide)
  · subst hd
    decide

lemma underscoresOk_of_no_underscore (l : List Char)
    (h : ∀ c ∈ l, c ≠ Char.ofNat 95) : underscoresOk l = true := by
  cases l with
  | nil => rfl
  | cons c rest =>
    have hc : ¬(c = Char.ofNat 95) := h c (List.mem_cons_self c rest)
    rw [underscoresOk, if_neg hc]
    exact usAux_no_underscore c rest (fun x hx => h x (List.mem_cons_of_mem c hx))

lemma stripU_eq_self (l : List Char) (h : ∀ c ∈ l, c ≠ Char.ofNat 95) :
    stripU l = l := by
  unfold stripU
  apply List.filter_eq_self.mpr
  intro c hc
  simp [h c hc]

lemma hasExpChar_eq_false (l : List Char)
    (h : ∀ c ∈ l, c ≠ Char.ofNat 101 ∧ c ≠ Char.ofNat 69) :
    hasExpChar l = false := by
  unfold hasExpChar
  rw [List.any_eq_false]
  intro c hc
  simp [(h c hc).1, (h c hc).2]

lemma pyFloatBody_mag (body : List Char) (q : ℚ)
    (hdd : ∀ c ∈ body, c.isDigit = true ∨ c = Char.ofNat 46)
    (hq : parseMag body = some q) (neg : Bool) :
    pyFloatBody neg body = some (.finite (if neg then -q else q)) := by
  have hinf : ¬(body.map Char.toLower = "inf".toList
      ∨ body.map Char.toLower = "infinity".toList) := by
    rw [not_or]
    exact ⟨map_toLower_ne_of_head body hdd _ _ (by decide) (by decide),
      map_toLower_ne_of_head body hdd _ _ (by decide) (by decide)⟩
  have hnan : ¬(body.map Char.toLower = "nan".toList) :=
    map_toLower_ne_of_head body hdd _ _ (by decide) (by decide)
  have hnu := no_underscore_of_digit_or_dot body hdd
  have hus : underscoresOk body = true := underscoresOk_of_no_underscore body hnu
  have hexp : hasExpChar body = false :=
    hasExpChar_eq_false body (no_exp_of_digit_or_dot body hdd)
  unfold pyFloatBody
  rw [if_neg hinf, if_neg hnan, if_pos hus, stripU_eq_self body hnu, hq]
  show (if hasExpChar body = true ∧ ovfThreshold ≤ q then some (FloatVal.inf neg)
      else some (FloatVal.finite (if neg then -q else q)))
    = some (FloatVal.finite (if neg then -q else q))
  rw [if_neg]
  intro hcon
  rw [hexp] at hcon
  exact Bool.false_ne_true hcon.1

lemma pyFloat_of_digits (l : List Char) (hl : ∀ c ∈ l, c.isDigit = true)
    (hne : l ≠ []) :
    pyFloat (String.mk l) = some (.finite ((digitsVal l : ℚ))) := by
  obtain ⟨c, r, hcr⟩ : ∃ c r, l = c :: r := by
    cases l with
    | nil => exact absurd rfl hne
    | cons c r => exact ⟨c, r, rfl⟩
  have hc : c.isDigit = true := hl c (by rw [hcr]; exact List.mem_cons_self c r)
  have hplus : ¬(c = Char.ofNat 43) :=
    ne_of_isDigit_of_not_isDigit c _ hc (by decide)
  have hminus : ¬(c = Char.ofNat 45) :=
    ne_of_isDigit_of_not_isDigit c _ hc (by decide)
  have htrim : trimChars (String.mk l).toList = l :=
    trimChars_eq_self l (fun x hx => isSpaceChar_eq_false_of_isDigit x (hl x hx))
  have hq : parseMag l = some ((digitsVal l : ℚ)) := by
    rw [parseMag_no_exp l (no_exp_of_digit_or_dot l (fun x hx => Or.inl (hl x hx))),
      parseDecMag_digits l hl hne]
  rw [pyFloat, htrim, hcr]
  simp only [hplus, if_false, hminus]
  rw [← hcr, pyFloatBody_mag l _ (fun x hx => Or.inl (hl x hx)) hq false]
  rfl

lemma string_mk_append (l l2 : List Char) :
    String.mk l ++ String.mk l2 = String.mk (l ++ l2) := rfl

lemma pyFloat_dot (ip frac : List Char) (hip : ∀ c ∈ ip, c.isDigit = true)
    (hfrac : ∀ c ∈ frac, c.isDigit = true) (hne : ip ≠ []) :
    pyFloat (String.mk (ip ++ Char.ofNat 46 :: frac))
      = some (.finite ((digitsVal ip : ℚ)
          + (digitsVal frac : ℚ) / (10 : ℚ) ^ frac.length)) := by
  have hdot : ∀ c ∈ ip ++ Char.ofNat 46 :: frac, c.isDigit = true ∨ c = Char.ofNat 46 := by
    intro c hc
    rcases List.mem_append.mp hc with hc | hc
    · exact Or.inl (hip c hc)
    · rcases List.mem_cons.mp hc with hc | hc
      · exact Or.inr hc
      · exact Or.inl (hfrac c hc)
  have hns : ∀ c ∈ ip ++ Char.ofNat 46 :: frac, isSpaceChar c = false := by
    intro c hc
    rcases hdot c hc with hd | hd
    · exact isSpaceChar_eq_false_of_isDigit c hd
    · subst hd; decide
  obtain ⟨c, r, hcr⟩ : ∃ c r, ip = c :: r := by
    cases ip with
    | nil => exact absurd rfl hne
    | cons c r => exact ⟨c, r, rfl⟩
  have hc : c.isDigit = true := hip c (by rw [hcr]; exact List.mem_cons_self c r)
  have hplus : ¬(c = Char.ofNat 43) :=
    ne_of_isDigit_of_not_isDigit c _ hc (by decide)
  have hminus : ¬(c = Char.ofNat 45) :=
    ne_of_isDigit_of_not_isDigit c _ hc (by decide)
  have htrim : trimChars (String.mk (ip ++ Char.ofNat 46 :: frac)).toList
      = ip ++ Char.ofNat 46 :: frac := trimChars_eq_self _ hns
  have hq : parseMag (ip ++ Char.ofNat 46 :: frac)
      = some ((digitsVal ip : ℚ) + (digitsVal frac : ℚ) / (10 : ℚ) ^ frac.length) := by
    rw [parseMag_no_exp _ (no_exp_of_digit_or_dot _ hdot),
      parseDecMag_dot ip frac hip hfrac hne]
  rw [pyFloat, htrim, hcr, List.cons_append]
  simp only [hplus, if_false, hminus]
  rw [← List.cons_append, ← hcr, pyFloatBody_mag _ _ hdot hq false]
  rfl

lemma pyFloat_neg (l : List Char) (q : ℚ)
    (hdd : ∀ c ∈ l, c.isDigit = true ∨ c = Char.ofNat 46)
    (hq : parseMag l = some q) :
    pyFloat (String.mk (Char.ofNat 45 :: l)) = some (.finite (-q)) := by
  have hns2 : ∀ c ∈ Char.ofNat 45 :: l, isSpaceChar c = false := by
    intro c hc
    rcases List.mem_cons.mp hc with hc | hc
    · subst hc; decide
    · rcases hdd c hc with hd | hd
      · exact isSpaceChar_eq_false_of_isDigit c hd
      · subst hd; decide
  have htrim : trimChars (String.mk (Char.ofNat 45 :: l)).toList
      = Char.ofNat 45 :: l := trimChars_eq_self _ hns2
  rw [pyFloat, htrim]
  show (if Char.ofNat 45 = Char.ofNat 43 then pyFloatBody false l
      else if Char.ofNat 45 = Char.ofNat 45 then pyFloatBody true l
      else pyFloatBody false (Char.ofNat 45 :: l)) = some (FloatVal.finite (-q))
  rw [if_neg (by decide), if_pos rfl, pyFloatBody_mag l q hdd hq true]
  rfl

lemma pyFloat_printInt (i : Int) :
    pyFloat (printInt i) = some (.finite ((i : ℚ))) := by
  by_cases hi : i < 0
  · have hshape : printInt i = String.mk (Char.ofNat 45 :: natDigits i.natAbs) := by
      rw [printInt, if_pos hi, printNat]
      rfl
    have hq : parseMag (natDigits i.natAbs)
        = some ((digitsVal (natDigits i.natAbs) : ℚ)) := by
      rw [parseMag_no_exp _ (no_exp_of_digit_or_dot _
          (fun c hc => Or.inl (natDigits_all_isDigit _ c hc))),
        parseDecMag_digits _ (natDigits_all_isDigit _) (natDigits_ne_nil _)]
    rw [hshape, pyFloat_neg _ _
        (fun c hc => Or.inl (natDigits_all_isDigit _ c hc)) hq,
      digitsVal_natDigits]
    congr 2
    have hcast : (i.natAbs : ℚ) = ((i.natAbs : ℤ) : ℚ) := (Int.cast_natCast _).symm
    rw [hcast, Int.ofNat_natAbs_of_nonpos (le_of_lt hi)]
    push_cast
    ring
  · have hshape : printInt i = String.mk (natDigits i.natAbs) := by
      rw [printInt, if_neg hi, printNat]
    rw [hshape, pyFloat_of_digits _ (natDigits_all_isDigit _) (natDigits_ne_nil _),
      digitsVal_natDigits]
    congr 2
    have hcast : (i.natAbs : ℚ) = ((i.natAbs : ℤ) : ℚ) := (Int.cast_natCast _).symm
    rw [hcast, Int.natAbs_of_nonneg (le_of_not_lt hi)]

lemma parseFloat_printInt (i : Int) : parseFloat (printInt i) = some ((i : ℚ)) := by
  unfold parseFloat
  rw [pyFloat_printInt i]

lemma stripZeros_toQ (e : Nat) (m : Int) :
    (((stripZeros m e).1 : ℚ)) / (10 : ℚ) ^ (stripZeros m e).2 = (m : ℚ) / (10 : ℚ) ^ e := by
  induction e generalizing m with
  | zero => rfl
  | succ n ih =>
    by_cases h : m % 10 = 0
    · have hd : (10 : ℤ) ∣ m := Int.dvd_of_emod_eq_zero h
      obtain ⟨c, rfl⟩ := hd
      have hq : (10 : ℤ) * c / 10 = c := Int.mul_ediv_cancel_left c (by norm_num)
      rw [stripZeros, if_pos h, hq, ih c]
      push_cast
      rw [pow_succ]
      field_simp
      ring
    · rw [stripZeros, if_neg h]

lemma Dec.norm_toQ (d : Dec) : d.norm.toQ = d.toQ := by
  unfold Dec.norm Dec.toQ
  exact stripZeros_toQ d.exp d.mant

lemma ip_fp_val (M e : Nat) :
    ((M / 10 ^ e : Nat) : ℚ) + ((M % 10 ^ e : Nat) : ℚ) / (10 : ℚ) ^ e
      = (M : ℚ) / (10 : ℚ) ^ e := by
  have h10 : ((10 : ℚ)) ^ e ≠ 0 := by positivity
  have h : (10 : ℚ) ^ e * ((M / 10 ^ e : Nat) : ℚ) + ((M % 10 ^ e : Nat) : ℚ) = (M : ℚ) := by
    exact_mod_cast congrArg (fun n : Nat => (n : ℚ)) (Nat.div_add_mod M (10 ^ e))
  field_simp
  linarith [h]

lemma frac_block_val (M e : Nat) :
    (digitsVal (if e = 0 then [Char.ofNat 48] else fracChars (M % 10 ^ e) e) : ℚ)
        / (10 : ℚ) ^ (if e = 0 then [Char.ofNat 48] else fracChars (M % 10 ^ e) e).length
      = ((M % 10 ^ e : Nat) : ℚ) / (10 : ℚ) ^ e := by
  by_cases he : e = 0
  · subst he
    have h1 : digitsVal [Char.ofNat 48] = 0 := by decide
    have h2 : M % 1 = 0 := Nat.mod_one M
    simp [h1, h2]
  · have hfp : M % 10 ^ e < 10 ^ e := Nat.mod_lt M (by positivity)
    rw [if_neg he, digitsVal_fracChars,
      fracChars_length _ e hfp (Nat.one_le_iff_ne_zero.mpr he)]

lemma frac_block_digits (M e : Nat) :
    ∀ c ∈ (if e = 0 then [Char.ofNat 48] else fracChars (M % 10 ^ e) e),
      c.isDigit = true := by
  by_cases he : e = 0
  · subst he
    intro c hc
    simp at hc
    subst hc
    decide
  · rw [if_neg he]
    exact fracChars_all_isDigit _ e

lemma pyFloat_printRaw (m : Int) (e : Nat) :
    pyFloat ((if m < 0 then "-" else "")
        ++ printNat (m.natAbs / 10 ^ e) ++ "."
        ++ String.mk (if e = 0 then [Char.ofNat 48] else fracChars (m.natAbs % 10 ^ e) e))
      = some (.finite ((m : ℚ) / (10 : ℚ) ^ e)) := by
  set frac := if e = 0 then [Char.ofNat 48] else fracChars (m.natAbs % 10 ^ e) e with hfrac
  have hipd := natDigits_all_isDigit (m.natAbs / 10 ^ e)
  have hipne := natDigits_ne_nil (m.natAbs / 10 ^ e)
  have hfd : ∀ c ∈ frac, c.isDigit = true := frac_block_digits m.natAbs e
  have hvalue : (digitsVal (natDigits (m.natAbs / 10 ^ e)) : ℚ)
      + (digitsVal frac : ℚ) / (10 : ℚ) ^ frac.length
      = ((m.natAbs : ℕ) : ℚ) / (10 : ℚ) ^ e := by
    rw [digitsVal_natDigits, hfrac, frac_block_val m.natAbs e]
    exact ip_fp_val m.natAbs e
  by_cases hm : m < 0
  · rw [if_pos hm]
    have hshape : ("-" : String) ++ printNat (m.natAbs / 10 ^ e) ++ "." ++ String.mk frac
        = String.mk (Char.ofNat 45 :: (natDigits (m.natAbs / 10 ^ e)
            ++ Char.ofNat 46 :: frac)) := by
      rw [printNat]
      exact congrArg String.mk (by simp)
    have hdd : ∀ c ∈ natDigits (m.natAbs / 10 ^ e) ++ Char.ofNat 46 :: frac,
        c.isDigit = true ∨ c = Char.ofNat 46 := by
      intro c hc
      rcases List.mem_append.mp hc with hc | hc
      · exact Or.inl (hipd c hc)
      · rcases List.mem_cons.mp hc with hc | hc
        · exact Or.inr hc
        · exact Or.inl (hfd c hc)
    have hq : parseMag (natDigits (m.natAbs / 10 ^ e) ++ Char.ofNat 46 :: frac)
        = some ((digitsVal (natDigits (m.natAbs / 10 ^ e)) : ℚ)
            + (digitsVal frac : ℚ) / (10 : ℚ) ^ frac.length) := by
      rw [parseMag_no_exp _ (no_exp_of_digit_or_dot _ hdd),
        parseDecMag_dot _ _ hipd hfd hipne]
    rw [hshape, pyFloat_neg _ _ hdd hq, hvalue]
    congr 2
    have hcast : (m.natAbs : ℚ) = ((m.natAbs : ℤ) : ℚ) := (Int.cast_natCast _).symm
    rw [hcast, Int.ofNat_natAbs_of_nonpos (le_of_lt hm)]
    push_cast
    ring
  · rw [if_neg hm]
    have hshape : ("" : String) ++ printNat (m.natAbs / 10 ^ e) ++ "." ++ String.mk frac
        = String.mk (natDigits (m.natAbs / 10 ^ e) ++ Char.ofNat 46 :: frac) := by
      rw [printNat]
      exact congrArg String.mk (by simp)
    rw [hshape, pyFloat_dot _ _ hipd hfd hipne, hvalue]
    congr 2
    have hcast : (m.natAbs : ℚ) = ((m.natAbs : ℤ) : ℚ) := (Int.cast_natCast _).symm
    rw [hcast, Int.natAbs_of_nonneg (le_of_not_lt hm)]

lemma pyFloat_printFloat (d0 : Dec) :
    pyFloat (printFloat d0) = some (.finite d0.toQ) := by
  have hshape : printFloat d0 = (if d0.norm.mant < 0 then "-" else "")
      ++ printNat (d0.norm.mant.natAbs / 10 ^ d0.norm.exp) ++ "."
      ++ String.mk (if d0.norm.exp = 0 then [Char.ofNat 48]
          else fracChars (d0.norm.mant.natAbs % 10 ^ d0.norm.exp) d0.norm.exp) := rfl
  rw [hshape, pyFloat_printRaw d0.norm.mant d0.norm.exp, ← Dec.norm_toQ d0]
  rfl

lemma parseFloat_printFloat (d0 : Dec) :
    parseFloat (printFloat d0) = some d0.toQ := by
  unfold parseFloat
  rw [pyFloat_printFloat d0]

lemma pyFloat_pyStrNum (t : PyNum) :
    pyFloat (pyStrNum t) = some (.finite t.toQ) := by
  cases t with
  | int i => exact pyFloat_printInt i
  | float d => exact pyFloat_printFloat d

lemma parseFloat_pyStrNum (t : PyNum) : parseFloat (pyStrNum t) = some t.toQ := by
  unfold parseFloat
  rw [pyFloat_pyStrNum t]

lemma cellOverflows_pyStrNum (t : PyNum) : cellOverflows (pyStrNum t) = false := by
  unfold cellOverflows
  rw [pyFloat_pyStrNum t]

lemma ratFloor_eq_intFloor (q : ℚ) : q.floor = ⌊q⌋ := by
  rw [Rat.floor_def' q, Rat.floor_def]

lemma pyRound_intCast (n : Int) : pyRound ((n : ℚ)) = n := by
  unfold pyRound
  rw [ratFloor_eq_intFloor, Int.floor_intCast]
  simp

lemma pyRound_half (n : Int) :
    pyRound ((n : ℚ) + 1 / 2) = if n % 2 = 0 then n else n + 1 := by
  unfold pyRound
  have hfl : ((n : ℚ) + 1 / 2).floor = n := by
    rw [ratFloor_eq_intFloor, Int.floor_int_add]
    norm_num
  rw [hfl]
  norm_num

lemma pyNumRound_eq_pyRound (t : PyNum) : pyNumRound t = pyRound t.toQ := by
  cases t with
  | int i => exact (pyRound_intCast i).symm
  | float d => rfl

/-- Expected `read_csv` report entry for a well-formed 5-cell data row:
the city cell, and the rounded temperature or the `'N/A'` sentinel. -/
def entryOfRow (r : List String) : Option String × String :=
  (r.get? 0,
   match (r.get? 2).bind parseFloat with
   | some q => printInt (pyRound q)
   | none => "N/A")

@[simp] lemma exceptBind_ok {α β : Type} (a : α) (f : α → Except String β) :
    (Except.ok a >>= f) = f a := rfl

lemma pyFloat_finite_of_parseFloat (s : String) (q : ℚ)
    (hp : parseFloat s = some q) : pyFloat s = some (.finite q) := by
  unfold parseFloat at hp
  cases hfs : pyFloat s with
  | none => rw [hfs] at hp; simp at hp
  | some fv =>
    cases fv with
    | finite q2 =>
      rw [hfs] at hp
      have hq2 : q2 = q := by simpa using hp
      rw [hq2]
    | inf b => rw [hfs] at hp; simp at hp
    | nan => rw [hfs] at hp; simp at hp

lemma tempOfCell_of_not_overflow (s : String) (h : cellOverflows s = false) :
    tempOfCell (some s)
      = .ok (match parseFloat s with
             | some q => printInt (pyRound q)
             | none => "N/A") := by
  cases hf : pyFloat s with
  | none => simp [tempOfCell, parseFloat, hf]
  | some fv =>
    cases fv with
    | finite q => simp [tempOfCell, parseFloat, hf]
    | inf b =>
      unfold cellOverflows at h
      rw [hf] at h
      simp at h
    | nan => simp [tempOfCell, parseFloat, hf]

lemma rowReport_std (r : List String) (hlen : r.length = 5)
    (hov : ∀ s, r.get? 2 = some s → cellOverflows s = false) :
    rowReport csvHeaders r = .ok (entryOfRow r) := by
  have hidx : lastIdxOf csvHeaders "Temperature (C)" = some 2 := by decide
  have hidx0 : lastIdxOf csvHeaders "City" = some 0 := by decide
  obtain ⟨s, hs⟩ : ∃ s, r.get? 2 = some s := by
    cases h : r.get? 2 with
    | none => rw [List.get?_eq_none] at h; omega
    | some s => exact ⟨s, rfl⟩
  have hs2 : r[2]? = some s := by simpa using hs
  have ht := tempOfCell_of_not_overflow s (hov s hs)
  unfold rowReport rowGet entryOfRow
  rw [hidx, hidx0]
  simp only [List.get?_eq_getElem?]
  cases hp : parseFloat s <;> simp [ht, hp, hs2]

lemma processRows_std (rows : List (List String))
    (hlen : ∀ r ∈ rows, r.length = 5)
    (hov : ∀ r ∈ rows, ∀ s, r.get? 2 = some s → cellOverflows s = false) :
    processRows csvHeaders rows = .ok (rows.map entryOfRow) := by
  induction rows with
  | nil => rfl
  | cons r rs ih =>
    have hr := hlen r (List.mem_cons_self r rs)
    have hrs := ih (fun x hx => hlen x (List.mem_cons_of_mem r hx))
      (fun x hx => hov x (List.mem_cons_of_mem r hx))
    unfold processRows
    rw [rowReport_std r hr (hov r (List.mem_cons_self r rs))]
    simp only [exceptBind_ok]
    rw [hrs]
    simp only [exceptBind_ok, List.map_cons]
    rfl

lemma read_csv_std (f : String) (fs : FS) (rows : List (List String))
    (hf : fs.files f = some (csvHeaders :: rows)) (hr : fs.readable f = true)
    (hlen : ∀ r ∈ rows, r.length = 5)
    (hov : ∀ r ∈ rows, ∀ s, r.get? 2 = some s → cellOverflows s = false) :
    read_csv f fs = .summary rows.length (rows.map entryOfRow) := by
  have hfilter : rows.filter (fun r => !r.isEmpty) = rows := by
    apply List.filter_eq_self.mpr
    intro r hrr
    have h5 := hlen r hrr
    cases r with
    | nil => simp at h5
    | cons x xs => rfl
  unfold read_csv
  rw [hf, hr]
  simp only [if_true, hfilter, processRows_std rows hlen hov]

lemma write_read_roundtrip (c co ds : String) (t h : PyNum) (f : String) (fs : FS)
    (hw : fs.writable f = true) (hr : fs.readable f = true) :
    read_csv f (write_to_csv
        (some ⟨.str c, .str co, .num t, .num h, .str ds⟩) f fs).1
      = .summary 1 [(some c, printInt (pyRound t.toQ))] := by
  set d : CityData := ⟨.str c, .str co, .num t, .num h, .str ds⟩ with hd
  have hfs2 : (write_to_csv (some d) f fs).1.files f = some [csvHeaders, csvRow d] := by
    unfold write_to_csv
    rw [hw]
    simp
  have hrd : (write_to_csv (some d) f fs).1.readable f = true := by
    unfold write_to_csv
    rw [hw]
    exact hr
  have hrow : csvRow d = [c, co, pyStrNum t, pyStrNum h, ds] := rfl
  have hlen : ∀ r ∈ [csvRow d], r.length = 5 := by
    intro r hrr
    simp at hrr
    subst hrr
    rw [hrow]
    rfl
  have hov : ∀ r ∈ [csvRow d], ∀ s, r.get? 2 = some s → cellOverflows s = false := by
    intro r hrr s hsome
    simp at hrr
    subst hrr
    rw [hrow] at hsome
    have h2 : ([c, co, pyStrNum t, pyStrNum h, ds].get? 2) = some (pyStrNum t) := rfl
    rw [h2] at hsome
    obtain rfl := (Option.some.inj hsome)
    exact cellOverflows_pyStrNum t
  rw [read_csv_std f _ [csvRow d] hfs2 hrd hlen hov]
  have hentry : entryOfRow (csvRow d) = (some c, printInt (pyRound t.toQ)) := by
    rw [hrow]
    unfold entryOfRow
    simp only [List.get?_eq_getElem?]
    have h2 : ([c, co, pyStrNum t, pyStrNum h, ds][2]?) = some (pyStrNum t) := rfl
    have h0 : ([c, co, pyStrNum t, pyStrNum h, ds][0]?) = some c := rfl
    rw [h2, h0, Option.some_bind, parseFloat_pyStrNum t]
  rw [List.length_singleton, List.map_singleton, hentry]

@[simp] lemma exceptBind_error {α β : Type} (e : String) (f : α → Except String β) :
    (Except.error e >>= f : Except String β) = .error e := rfl

/-- C7 (corrected): the claim is false for 3xx statuses — `raise_for_status`
only raises for status codes in [400, 600), so a non-2xx status such as 304
with a decodable body is not turned into the Transport-failure `None`;
here it yields a full record. -/
theorem c7_counterexample :
    get_city_data (.response 304 (some (Json.obj
      [("name", Json.str "Rome"),
       ("sys", Json.obj [("country", Json.str "IT")]),
       ("main", Json.obj [("temp", Json.num (.float ⟨205, 1⟩)),
                          ("humidity", Json.num (.int 60))]),
       ("weather", Json.arr [Json.obj [("description", Json.str "clear sky")]])])))
      ≠ Except.ok none := by
  intro h
  rw [show get_city_data (.response 304 (some (Json.obj
      [("name", Json.str "Rome"),
       ("sys", Json.obj [("country", Json.str "IT")]),
       ("main", Json.obj [("temp", Json.num (.float ⟨205, 1⟩)),
                          ("humidity", Json.num (.int 60))]),
       ("weather", Json.arr [Json.obj [("description", Json.str "clear sky")]])])))
      = Except.ok (some ⟨Json.str "Rome", Json.str "IT", Json.num (.float ⟨205, 1⟩),
          Json.num (.int 60), Json.str "clear sky"⟩) from rfl] at h
  simp at h

/-- C7 (amended): `get_city_data` returns `None` (never raising) on any
`RequestException` during the request, on any 4xx/5xx status — not on
every non-2xx status — and on any response whose body fails to decode
as JSON when `raise_for_status` does not raise. -/
theorem c7_transport_and_malformed_return_none :
    (∀ msg, get_city_data (.reqError msg) = .ok none)
    ∧ (∀ (status : Nat) (body : Option Json), 400 ≤ status → status < 600 →
        get_city_data (.response status body) = .ok none)
    ∧ (∀ status : Nat, ¬(400 ≤ status ∧ status < 600) →
        get_city_data (.response status none) = .ok none) := by
  refine ⟨fun msg => rfl, ?_, ?_⟩
  · intro st b h1 h2
    have hb : raiseForStatus st = true := by
      unfold raiseForStatus
      rw [Bool.and_eq_true, decide_eq_true_eq, decide_eq_true_eq]
      exact ⟨h1, h2⟩
    simp [get_city_data, hb]
  · intro st h
    have hb : raiseForStatus st = false := by
      unfold raiseForStatus
      by_cases h1 : 400 ≤ st
      · have h2 : ¬(st < 600) := fun h2 => h ⟨h1, h2⟩
        simp [h1, h2]
      · simp [h1]
    simp [get_city_data, hb]

/-- Witness for C7 at concrete inputs. -/
theorem c7_witness :
    get_city_data (.reqError "connection timed out") = .ok none
    ∧ get_city_data (.response 404 (some (Json.obj []))) = .ok none
    ∧ get_city_data (.response 200 none) = .ok none :=
  ⟨c7_transport_and_malformed_return_none.1 "connection timed out",
   c7_transport_and_malformed_return_none.2.1 404 (some (Json.obj []))
     (by norm_num) (by norm_num),
   c7_transport_and_malformed_return_none.2.2 200 (by omega)⟩

/-- C8 (corrected): on a missing file `read_csv` only prints the
not-found message — the outcome is `notFound`, not a zero-count
summary: no summary (in particular no zero-count one) is produced. -/
theorem c8_counterexample :
    read_csv "missing.csv" fs0 = ReadOutcome.notFound
    ∧ ReadOutcome.notFound ≠ ReadOutcome.summary 0 [] :=
  ⟨rfl, by decide⟩

/-- C8 (amended): a non-existent path yields the recoverable `notFound`
outcome (never a crash), with no summary emitted; any other I/O error
while opening an existing file is likewise caught, as `ioError`. -/
theorem c8_io_failures_recovered :
    (∀ (f : String) (fs : FS), fs.files f = none → read_csv f fs = .notFound)
    ∧ (∀ (f : String) (fs : FS) (rows : List (List String)),
        fs.files f = some rows → fs.readable f = false → read_csv f fs = .ioError) := by
  constructor
  · intro f fs h
    unfold read_csv
    rw [h]
  · intro f fs rows h hr
    unfold read_csv
    rw [h, hr]
    rfl

/-- Witness for C8 at concrete inputs. -/
theorem c8_witness :
    read_csv "absent.csv" fs0 = .notFound
    ∧ read_csv "locked.csv"
        ⟨fun _ => some [], fun _ => true, fun _ => false⟩ = .ioError :=
  ⟨c8_io_failures_recovered.1 "absent.csv" fs0 rfl,
   c8_io_failures_recovered.2 "locked.csv"
     ⟨fun _ => some [], fun _ => true, fun _ => false⟩ [] rfl rfl⟩

/-- C1 (corrected): the claim is false — on a fetch failure the
`__main__` block skips the CSV write but still calls `read_csv`: here a
transport failure still leads to a read attempt on `city_data.csv`. -/
theorem c1_counterexample :
    get_city_data (.reqError "timeout") = .ok none
    ∧ Step.csvRead FILENAME ReadOutcome.notFound
        ∈ (mainRun (.reqError "timeout") fs0).2 :=
  ⟨rfl, by decide⟩

/-- C1 (amended): whenever `get_city_data` returns `None`, the run
leaves the file system untouched and performs no CSV write, but the
read-back summary `read_csv` is still attempted on the existing file. -/
theorem c1_fetch_failure_skips_write_not_read (resp : HTTPResult) (fs : FS)
    (h : get_city_data resp = .ok none) :
    (mainRun resp fs).1 = fs
    ∧ (∀ f c, Step.csvWritten f c ∉ (mainRun resp fs).2)
    ∧ Step.csvRead FILENAME (read_csv FILENAME fs) ∈ (mainRun resp fs).2 := by
  unfold mainRun
  rw [h]
  cases hro : read_csv FILENAME fs <;>
    simp [display_data, write_to_csv, hro]

/-- Witness for C1 at a concrete failing fetch. -/
theorem c1_witness :
    get_city_data (.response 500 none) = .ok none
    ∧ (mainRun (.response 500 none) fs0).1 = fs0
    ∧ (∀ f c, Step.csvWritten f c ∉ (mainRun (.response 500 none) fs0).2)
    ∧ Step.csvRead FILENAME (read_csv FILENAME fs0)
        ∈ (mainRun (.response 500 none) fs0).2 :=
  ⟨rfl, c1_fetch_failure_skips_write_not_read (.response 500 none) fs0 rfl⟩

/-- C2 (corrected): the claim is false for the `name` path — a 2xx body
lacking only `name` does not surface any error: `data.get('name')`
silently yields `None` and a record is returned. -/
theorem c2_counterexample :
    get_city_data (.response 200 (some (Json.obj
      [("sys", Json.obj [("country", Json.str "GB")]),
       ("main", Json.obj [("temp", Json.num (.float ⟨128, 1⟩)),
                          ("humidity", Json.num (.int 71))]),
       ("weather", Json.arr [Json.obj [("description", Json.str "light rain")]])])))
      = Except.ok (some ⟨Json.null, Json.str "GB", Json.num (.float ⟨128, 1⟩),
          Json.num (.int 71), Json.str "light rain"⟩) := rfl

/-- C2 (amended): a failing bracket lookup on any of the four paths
`sys.country`, `main.temp`, `main.humidity`, `weather[0].description`
makes the extraction — and hence `get_city_data` on a non-raising
status — throw an unhandled lookup error distinct from the `None`
transport return, and that error is caught at the `__main__` boundary
and converted to a single printed message; only a missing `name` is
exempt: it produces a record whose city is `None`. -/
theorem c2_missing_field_behavior :
    (∀ data : Json,
        ((∃ e, countryOf data = .error e) ∨ (∃ e, tempOf data = .error e)
          ∨ (∃ e, humidityOf data = .error e) ∨ (∃ e, descriptionOf data = .error e)) →
        ∃ e, extract_city_data data = .error e)
    ∧ (∀ (status : Nat) (body : Json) (e : String), raiseForStatus status = false →
        extract_city_data body = .error e →
        get_city_data (.response status (some body)) = .error e)
    ∧ (∀ (resp : HTTPResult) (fs : FS) (e : String), get_city_data resp = .error e →
        mainRun resp fs = (fs, [.errorCaught e]))
    ∧ (∀ l : List (String × Json), lookupLast l "name" = none →
        ∀ c t h ds : Json, countryOf (.obj l) = .ok c → tempOf (.obj l) = .ok t →
          humidityOf (.obj l) = .ok h → descriptionOf (.obj l) = .ok ds →
          extract_city_data (.obj l) = .ok ⟨Json.null, c, t, h, ds⟩) := by
  refine ⟨?_, ?_, ?_, ?_⟩
  · intro data hfail
    cases hc : pyGet data "name" with
    | error e => exact ⟨e, by simp [extract_city_data, hc]⟩
    | ok city =>
      cases hco : countryOf data with
      | error e => exact ⟨e, by simp [extract_city_data, hc, hco]⟩
      | ok cv =>
        cases htp : tempOf data with
        | error e => exact ⟨e, by simp [extract_city_data, hc, hco, htp]⟩
        | ok tv =>
          cases hhm : humidityOf data with
          | error e => exact ⟨e, by simp [extract_city_data, hc, hco, htp, hhm]⟩
          | ok hv =>
            cases hdc : descriptionOf data with
            | error e => exact ⟨e, by simp [extract_city_data, hc, hco, htp, hhm, hdc]⟩
            | ok dv =>
              exfalso
              rcases hfail with ⟨e, he⟩ | ⟨e, he⟩ | ⟨e, he⟩ | ⟨e, he⟩ <;>
                simp_all
  · intro st body e h1 h2
    simp [get_city_data, h1, h2, Except.map]
  · intro resp fs e h
    unfold mainRun
    rw [h]
  · intro l hname c t h ds hco ht hh hd
    simp [extract_city_data, pyGet, hname, hco, ht, hh, hd]

/-- Witness for C2: a body with only `name` makes the country lookup
throw `KeyError: sys`, which the `__main__` handler catches. -/
theorem c2_witness :
    (∃ e, extract_city_data (Json.obj [("name", Json.str "Oslo")]) = .error e)
    ∧ mainRun (.response 200 (some (Json.obj [("name", Json.str "Oslo")]))) fs0
        = (fs0, [.errorCaught "KeyError: sys"]) :=
  ⟨c2_missing_field_behavior.1 _ (Or.inl ⟨"KeyError: sys", rfl⟩),
   c2_missing_field_behavior.2.2.1 _ fs0 _ rfl⟩

/-- C3 (corrected): the claim is false — a 2xx body lacking `name`
still constructs a record, with the fabricated default `None` as its
city. -/
theorem c3_counterexample :
    get_city_data (.response 200 (some (Json.obj
      [("sys", Json.obj [("country", Json.str "FR")]),
       ("main", Json.obj [("temp", Json.num (.float ⟨216, 1⟩)),
                          ("humidity", Json.num (.int 55))]),
       ("weather", Json.arr [Json.obj [("description", Json.str "scattered clouds")]])])))
      = Except.ok (some ⟨Json.null, Json.str "FR", Json.num (.float ⟨216, 1⟩),
          Json.num (.int 55), Json.str "scattered clouds"⟩) := rfl

/-- C3 (amended): every record that is constructed carries the
response's values for the four bracket paths, and its city is the
response's `name` value when present — but when `name` is absent the
record is still constructed with city `None`, so a record with a
missing (defaulted) city field can exist. -/
theorem c3_record_fields_from_response (l : List (String × Json)) (c t h ds : Json)
    (hco : countryOf (.obj l) = .ok c) (ht : tempOf (.obj l) = .ok t)
    (hh : humidityOf (.obj l) = .ok h) (hd : descriptionOf (.obj l) = .ok ds) :
    extract_city_data (.obj l)
      = .ok ⟨(lookupLast l "name").getD Json.null, c, t, h, ds⟩ := by
  simp [extract_city_data, pyGet, hco, ht, hh, hd]

/-- Witness for C3 at a complete concrete body. -/
theorem c3_witness :
    extract_city_data (Json.obj
      [("name", Json.str "Paris"),
       ("sys", Json.obj [("country", Json.str "FR")]),
       ("main", Json.obj [("temp", Json.num (.float ⟨216, 1⟩)),
                          ("humidity", Json.num (.int 55))]),
       ("weather", Json.arr [Json.obj [("description", Json.str "scattered clouds")]])])
      = .ok ⟨Json.str "Paris", Json.str "FR", Json.num (.float ⟨216, 1⟩),
          Json.num (.int 55), Json.str "scattered clouds"⟩ :=
  c3_record_fields_from_response _ _ _ _ _ rfl rfl rfl rfl

/-- C4 (corrected): the claim's plain header is false — the header
`write_to_csv` actually writes is the unit-annotated
`City, Country, Temperature (C), Humidity (%), Description`. -/
theorem c4_counterexample :
    (write_to_csv (some ⟨Json.str "Lagos", Json.str "NG", Json.num (.float ⟨301, 1⟩),
        Json.num (.int 80), Json.str "haze"⟩) "out.csv" fs0).1.files "out.csv"
      = some [["City", "Country", "Temperature (C)", "Humidity (%)", "Description"],
          ["Lagos", "NG", "30.1", "80", "haze"]]
    ∧ csvHeaders ≠ ["City", "Country", "Temperature", "Humidity", "Description"] :=
  ⟨rfl, by decide⟩

/-- C4 (amended): for every record and writable path, `write_to_csv`
replaces the file's contents entirely with the unit-annotated 5-column
header followed by exactly one data row of the record's raw cell
values, touching no other path. -/
theorem c4_save_overwrites_header_row (d : CityData) (f : String) (fs : FS)
    (hw : fs.writable f = true) :
    (write_to_csv (some d) f fs).1.files f = some [csvHeaders, csvRow d]
    ∧ (write_to_csv (some d) f fs).2 = .csvWritten f [csvHeaders, csvRow d]
    ∧ (∀ p, p ≠ f → (write_to_csv (some d) f fs).1.files p = fs.files p)
    ∧ csvHeaders = ["City", "Country", "Temperature (C)", "Humidity (%)", "Description"]
    ∧ csvRow d = [csvCell d.city, csvCell d.country, csvCell d.temperature,
        csvCell d.humidity, csvCell d.description] := by
  unfold write_to_csv
  rw [hw]
  refine ⟨by simp, rfl, ?_, rfl, rfl⟩
  intro p hp
  simp [hp]

/-- Witness for C4 at a concrete record and path. -/
theorem c4_witness :
    (write_to_csv (some ⟨Json.str "Cairo", Json.str "EG", Json.num (.float ⟨352, 1⟩),
        Json.num (.int 20), Json.str "clear sky"⟩) "w.csv" fs0).1.files "w.csv"
      = some [csvHeaders, csvRow ⟨Json.str "Cairo", Json.str "EG",
          Json.num (.float ⟨352, 1⟩), Json.num (.int 20), Json.str "clear sky"⟩]
    ∧ (write_to_csv (some ⟨Json.str "Cairo", Json.str "EG", Json.num (.float ⟨352, 1⟩),
        Json.num (.int 20), Json.str "clear sky"⟩) "w.csv" fs0).1.files "other.csv"
      = fs0.files "other.csv" :=
  ⟨(c4_save_overwrites_header_row _ "w.csv" fs0 rfl).1,
   (c4_save_overwrites_header_row _ "w.csv" fs0 rfl).2.2.1 "other.csv" (by decide)⟩

/-- C5 (confirmed): saving a fully populated record and immediately
reading the same path back yields exactly one row whose city is the
record's city and whose displayed temperature is the record's raw
temperature rounded for display. -/
theorem c5_save_load_roundtrip (c co ds : String) (t h : PyNum) (f : String) (fs : FS)
    (hw : fs.writable f = true) (hr : fs.readable f = true) :
    read_csv f (write_to_csv
        (some ⟨Json.str c, Json.str co, Json.num t, Json.num h, Json.str ds⟩) f fs).1
      = .summary 1 [(some c, printInt (pyRound t.toQ))] :=
  write_read_roundtrip c co ds t h f fs hw hr

/-- Witness for C5 at a concrete record. -/
theorem c5_witness :
    read_csv "t.csv" (write_to_csv (some ⟨Json.str "Paris", Json.str "FR",
        Json.num (.float ⟨216, 1⟩), Json.num (.int 55),
        Json.str "scattered clouds"⟩) "t.csv" fs0).1
      = .summary 1 [(some "Paris", "22")] := by
  have h := c5_save_load_roundtrip "Paris" "FR" "scattered clouds"
    (.float ⟨216, 1⟩) (.int 55) "t.csv" fs0 rfl rfl
  rw [h]
  have h22 : pyRound (PyNum.float ⟨216, 1⟩).toQ = 22 := by
    unfold PyNum.toQ Dec.toQ pyRound
    rw [ratFloor_eq_intFloor]
    norm_num
  rw [h22]
  rfl

/-- C6 (confirmed): for `temp=21.6, humidity=55,
description="scattered clouds"`, the display shows `22°C` and
`Scattered clouds`, while the persisted row stores `21.6` and
`scattered clouds` unmodified. -/
theorem c6_display_derived_store_raw :
    display_data (some ⟨Json.str "Paris", Json.str "FR", Json.num (.float ⟨216, 1⟩),
        Json.num (.int 55), Json.str "scattered clouds"⟩)
      = .ok ["\n--- Weather Report ---", "City: Paris, FR", "Temperature: 22°C",
          "Humidity: 55%", "Description: Scattered clouds"]
    ∧ (write_to_csv (some ⟨Json.str "Paris", Json.str "FR", Json.num (.float ⟨216, 1⟩),
        Json.num (.int 55), Json.str "scattered clouds"⟩) FILENAME fs0).1.files FILENAME
      = some [["City", "Country", "Temperature (C)", "Humidity (%)", "Description"],
          ["Paris", "FR", "21.6", "55", "scattered clouds"]] := by
  constructor
  · have h22 : pyNumRound (.float ⟨216, 1⟩) = 22 := by
      show pyRound (Dec.toQ ⟨216, 1⟩) = 22
      unfold Dec.toQ pyRound
      rw [ratFloor_eq_intFloor]
      norm_num
    have hd : display_data (some ⟨Json.str "Paris", Json.str "FR",
        Json.num (.float ⟨216, 1⟩), Json.num (.int 55), Json.str "scattered clouds"⟩)
        = .ok ["\n--- Weather Report ---", "City: Paris, FR",
            "Temperature: " ++ printInt (pyNumRound (.float ⟨216, 1⟩)) ++ "°C",
            "Humidity: 55%", "Description: Scattered clouds"] := rfl
    rw [hd, h22]
    rfl
  · rfl

/-- C10 (confirmed): the rounding rule is round-half-to-even: every
half-integer rounds to its even neighbor (`22.5 → 22`, `21.5 → 22`),
and the presentation step (`round` in `display_data`) and the read-back
summary (`round(float(...))` in `read_csv`) apply the identical
`pyRound` rule. -/
theorem c10_round_half_to_even :
    (∀ n : Int, pyRound ((n : ℚ) + 1 / 2) = if n % 2 = 0 then n else n + 1)
    ∧ pyRound ((45 : ℚ) / 2) = 22
    ∧ pyRound ((43 : ℚ) / 2) = 22
    ∧ (∀ t : PyNum, pyNumRound t = pyRound t.toQ)
    ∧ (∀ (s : String) (q : ℚ), parseFloat s = some q →
        tempOfCell (some s) = .ok (printInt (pyRound q))) := by
  refine ⟨pyRound_half, ?_, ?_, pyNumRound_eq_pyRound, ?_⟩
  · unfold pyRound
    rw [ratFloor_eq_intFloor]
    norm_num
  · unfold pyRound
    rw [ratFloor_eq_intFloor]
    norm_num
  · intro s q hp
    simp [tempOfCell, pyFloat_finite_of_parseFloat s q hp]

/-- Witness for C10 at concrete halfway and parsed inputs. -/
theorem c10_witness :
    pyRound (((4 : Int) : ℚ) + 1 / 2) = 4
    ∧ tempOfCell (some "2.5") = .ok (printInt (pyRound (Dec.toQ ⟨25, 1⟩))) := by
  constructor
  · rw [c10_round_half_to_even.1 4]
    decide
  · exact c10_round_half_to_even.2.2.2.2 "2.5" _ (parseFloat_printFloat ⟨25, 1⟩)
